import Mathlib

/-!
Verification of the aioreactive operator library (filter.py, timeshift.py,
types.py) against its natural-language specification.

The embedding models a subscription as a run over the list of notifications
the upstream delivers, in delivery order.  An operator is a state machine:
its observer reaction maps the local state and one incoming message to the
next local state and the list of calls it makes on its downstream observer.
Those calls are interpreted through the auto-detach safe observer (modelled
from the spec: observers.py is not part of the given sources), which carries
the per-subscription is-stopped flag: it forwards a send only while not
stopped, forwards the first terminal and marks itself stopped, and its
self-unsubscription disposes the upstream subscription, which stops the
delivery of further upstream messages.
-/

namespace AioReactive

variable {α β γ σ μ : Type}

/-- Notification (notification.py): tagged variant of the three observer
signals. Errors are identified by a numeric id standing for the Exception
object. -/
inductive Notification (α : Type) where
  | OnNext (value : α)
  | OnError (error : Nat)
  | OnCompleted
deriving DecidableEq

open Notification

/-- One call an operator makes on its downstream observer: asend, athrow or
aclose. -/
inductive ObsCall (α : Type) where
  | send (value : α)
  | throw (error : Nat)
  | close
deriving DecidableEq

/-- Modelled from the spec: the safe observer produced by auto_detach_observer
(observers.py, not among the given sources; spec section 4.2): it forwards
`send` only while not yet stopped; on `throw` or `close` it forwards exactly
once, marks itself stopped, and disposes the subscription's own disposable. -/
def safeStep (stopped : Bool) : ObsCall α → Bool × List (Notification α)
  | ObsCall.send x => if stopped then (stopped, []) else (stopped, [OnNext x])
  | ObsCall.throw e => if stopped then (stopped, []) else (true, [OnError e])
  | ObsCall.close => if stopped then (stopped, []) else (true, [OnCompleted])

/-- Interpret a sequence of observer calls through the safe observer,
returning the final is-stopped flag and the notifications actually delivered
downstream. -/
def runCalls (stopped : Bool) : List (ObsCall α) → Bool × List (Notification α)
  | [] => (stopped, [])
  | c :: cs =>
    let p := safeStep stopped c
    let q := runCalls p.1 cs
    (q.1, p.2 ++ q.2)

/-- Run one operator over the messages its upstream delivers.  `react` is the
operator's observer reaction (translated from the source), `s` its local
state, and the flag the safe observer's is-stopped state.  When the safe
observer has stopped, auto-detach has disposed the upstream subscription, so
no further upstream message is delivered: the run ends.  Returns the
notifications delivered downstream and how many upstream messages were
consumed before disposal. -/
def runOp (react : σ → μ → σ × List (ObsCall β)) :
    σ → Bool → List μ → List (Notification β) × Nat
  | _, _, [] => ([], 0)
  | s, stopped, m :: rest =>
    if stopped then ([], 0)
    else
      let r := react s m
      let q := runCalls stopped r.2
      let t := runOp react r.1 q.1 rest
      (q.2 ++ t.1, t.2 + 1)

/-- take (filter.py line 281): construction-time check, raising ValueError for
a negative count before any subscription exists. -/
def take_make (count : Int) : Except String Int :=
  if count < 0 then Except.error "Count cannot be negative." else Except.ok count

/-- take's observer (filter.py lines 303 to 312): forwards while the remaining
counter is positive, and synthesizes a completion as soon as it hits zero. -/
def takeReact (remaining : Int) : Notification α → Int × List (ObsCall α)
  | OnNext x =>
    if remaining > 0 then
      (remaining - 1,
        if remaining - 1 = 0 then [ObsCall.send x, ObsCall.close] else [ObsCall.send x])
    else (remaining, [])
  | OnError e => (remaining, [ObsCall.throw e])
  | OnCompleted => (remaining, [ObsCall.close])

def take_run (count : Int) (input : List (Notification α)) :
    List (Notification α) × Nat :=
  runOp takeReact count false input

def take_output (count : Int) (input : List (Notification α)) :
    List (Notification α) :=
  (take_run count input).1

/-- skip's observer (filter.py lines 225 to 230): drops the first `count`
arrivals, then forwards everything. -/
def skipReact (remaining : Int) : Notification α → Int × List (ObsCall α)
  | OnNext x => if remaining ≤ 0 then (remaining, [ObsCall.send x]) else (remaining - 1, [])
  | OnError e => (remaining, [ObsCall.throw e])
  | OnCompleted => (remaining, [ObsCall.close])

def skip_output (count : Int) (input : List (Notification α)) :
    List (Notification α) :=
  (runOp skipReact count false input).1

/-- skip_last's observer (filter.py lines 262 to 271).  The element type is
Option so that the Python value None is representable: the Python code
initializes `front = None`, pops the queue's front into it on overflow, and
forwards only `if front is not None` — conflating "no overflow" with "the
popped element was None". -/
def skipLastReact (count : Int) (q : List (Option β)) :
    Notification (Option β) → List (Option β) × List (ObsCall (Option β))
  | OnNext value =>
    let q1 := q ++ [value]
    let popped : Option β × List (Option β) :=
      if (q1.length : Int) > count then
        match q1 with
        | [] => (none, q1)
        | f :: rest => (f, rest)
      else (none, q1)
    match popped with
    | (some f, q2) => (q2, [ObsCall.send (some f)])
    | (none, q2) => (q2, [])
  | OnError e => (q, [ObsCall.throw e])
  | OnCompleted => (q, [ObsCall.close])

def skip_last_run (count : Int) (input : List (Notification (Option β))) :
    List (Notification (Option β)) × Nat :=
  runOp (skipLastReact count) [] false input

def skip_last_output (count : Int) (input : List (Notification (Option β))) :
    List (Notification (Option β)) :=
  (skip_last_run count input).1

/-- take_last's observer (filter.py lines 338 to 346): buffers the last
`count` arrivals and flushes them followed by a completion when the source
completes. -/
def takeLastReact (count : Int) (q : List α) : Notification α → List α × List (ObsCall α)
  | OnNext value =>
    let q1 := q ++ [value]
    (if (q1.length : Int) > count then q1.tail else q1, [])
  | OnError e => (q, [ObsCall.throw e])
  | OnCompleted => (q, q.map ObsCall.send ++ [ObsCall.close])

def take_last_output (count : Int) (input : List (Notification α)) :
    List (Notification α) :=
  (runOp (takeLastReact count) [] false input).1

/-- distinct_until_changed's actor loop (filter.py lines 166 to 193): the
accumulator is the last received notification, seeded with the completion
sentinel; a value equal to the accumulator is dropped, anything else is
dispatched on the safe observer; the accumulator becomes the received
notification in every case (get_latest returns n unconditionally). -/
def distinctReact [DecidableEq α] (latest : Notification α) (n : Notification α) :
    Notification α × List (ObsCall α) :=
  match n with
  | OnNext x => if n = latest then (n, []) else (n, [ObsCall.send x])
  | OnError e => (n, [ObsCall.throw e])
  | OnCompleted => (n, [ObsCall.close])

def distinct_output [DecidableEq α] (input : List (Notification α)) :
    List (Notification α) :=
  (runOp distinctReact OnCompleted false input).1

/-- Modelled from the spec: filteri (filter.py lines 126 to 147) is composed
from zip_seq, starfilter and map, whose bodies (combine.py, transform.py) are
not among the given sources.  Spec section 4.4: it filters using the pair of
value and arrival index, the index starting at 0 and incrementing per arrival;
errors and completion pass through. -/
def filteriReact (pred : α → Int → Bool) (index : Int) :
    Notification α → Int × List (ObsCall α)
  | OnNext x => (index + 1, if pred x index then [ObsCall.send x] else [])
  | OnError e => (index, [ObsCall.throw e])
  | OnCompleted => (index, [ObsCall.close])

def filteri_output (pred : α → Int → Bool) (input : List (Notification α)) :
    List (Notification α) :=
  (runOp (filteriReact pred) 0 false input).1

/-- slice's start stage (filter.py lines 420 to 424): a negative start keeps
the last `abs start` elements, a non-negative one skips the first `start`. -/
def sliceStart (start : Option Int) :
    List (Notification (Option β)) → List (Notification (Option β)) :=
  match start with
  | some s => if s < 0 then take_last_output (-s) else skip_output s
  | none => id

/-- slice's stop stage (filter.py lines 426 to 431): a positive stop takes
`stop - (start or 0)` elements — whose construction raises when that count is
negative — and a non-positive one drops the last `abs stop`. -/
def sliceStop (start stop : Option Int) :
    Except String (List (Notification (Option β)) → List (Notification (Option β))) :=
  match stop with
  | some p =>
    if p > 0 then
      (take_make (p - (match start with | some s => s | none => 0))).map
        fun c => take_output c
    else Except.ok (skip_last_output (-p))
  | none => Except.ok id

/-- slice's step stage (filter.py lines 433 to 439): a step above 1 keeps
every step-th arrival by index; a negative step raises TypeError; steps 0 and
1 pass the stream through unchanged (only step below 0 is checked). -/
def sliceStep (step : Int) :
    Except String (List (Notification (Option β)) → List (Notification (Option β))) :=
  if step > 1 then Except.ok (filteri_output fun _ i => i % step == 0)
  else if step < 0 then Except.error "Negative step not supported."
  else Except.ok id

/-- slice (filter.py lines 387 to 443): composes the three stages in the
source's order; an error raised while building the stop stage surfaces before
the step check, exactly as the Python exceptions do. -/
def slice_make (start stop : Option Int) (step : Int) :
    Except String (List (Notification (Option β)) → List (Notification (Option β))) :=
  match sliceStop start stop with
  | Except.error msg => Except.error msg
  | Except.ok f2 =>
    match sliceStep step with
    | Except.error msg => Except.error msg
    | Except.ok f3 => Except.ok fun l => f3 (f2 (sliceStart start l))

/-- Apply a constructed slice to a subscription's input. -/
def slice_apply (start stop : Option Int) (step : Int)
    (input : List (Notification (Option β))) :
    Except String (List (Notification (Option β))) :=
  (slice_make start stop step).map fun f => f input

/-- The claim's specification side of the slice equivalence, stated from the
spec's words: skip one element, then skip the last two. -/
def sliceSpecSkipOneSkipLastTwo (input : List (Notification (Option β))) :
    List (Notification (Option β)) :=
  skip_last_output 2 (skip_output 1 input)

/-- debounce's actor loop (timeshift.py lines 114 to 137): each message pairs
a notification with the sequence index it was posted under; a value is
forwarded only when its index equals the most recently seen index, a larger
index only updates that record, errors and completion are dispatched
unconditionally. -/
def debounceReact (currentIndex : Int) (msg : Notification α × Int) :
    Int × List (ObsCall α) :=
  match msg.1 with
  | OnNext x =>
    if msg.2 = currentIndex then (msg.2, [ObsCall.send x])
    else if msg.2 > currentIndex then (msg.2, [])
    else (currentIndex, [])
  | OnError e => (currentIndex, [ObsCall.throw e])
  | OnCompleted => (currentIndex, [ObsCall.close])

/-- debounce's actor output for a posted message sequence, from the seed
index -1 (timeshift.py line 137). -/
def debounce_output (msgs : List (Notification α × Int)) : List (Notification α) :=
  (runOp debounceReact (-1) false msgs).1

/-- delay (timeshift.py lines 31 to 100).  The CancellationTokenSource is
created at line 48, when delay wraps the source and before subscribe_async
is ever entered, so one token source is shared by every subscription to the
same delayed observable. -/
structure DelayObservable : Type where
  ctsCancelled : Bool
deriving DecidableEq

/-- The observable delay returns, its shared token source not yet cancelled. -/
def delay_observable : DelayObservable := { ctsCancelled := false }

/-- cancel (timeshift.py lines 93 to 97): disposing any one subscription calls
cts.cancel() on the shared token source. -/
def delay_dispose (o : DelayObservable) : DelayObservable := { o with ctsCancelled := true }

/-- One delay subscription's actor loop (timeshift.py lines 56 to 80): it
checks the shared token before each receive, waits out each message's own
stamped due time (a pure time shift: arrival order is preserved), and then
dispatches the notification verbatim on the raw downstream observer — delay
wraps its downstream in no auto-detach safe observer. -/
def delay_loop_output (o : DelayObservable) (msgs : List (Notification α)) :
    List (Notification α) :=
  if o.ctsCancelled then [] else msgs

/-- take_until's per-subscription state (filter.py lines 369 to 382): the safe
observer's is-stopped flag and the disposal flags of the primary subscription
sub1 and of the subscription sub2 to the other observable. -/
structure TakeUntilState : Type where
  stopped : Bool
  sub1Disposed : Bool
  sub2Disposed : Bool
deriving DecidableEq

def takeUntilInit : TakeUntilState :=
  { stopped := false, sub1Disposed := false, sub2Disposed := false }

/-- Deliver one call on take_until's safe observer.  auto_detach (modelled
from the spec, section 4.2) is piped around the primary subscription only
(filter.py line 378), so when the safe observer becomes stopped it disposes
sub1 — and only sub1. -/
def takeUntilDeliver (st : TakeUntilState) (c : ObsCall α) :
    TakeUntilState × List (Notification α) :=
  let p := safeStep st.stopped c
  ({ st with stopped := p.1, sub1Disposed := st.sub1Disposed || p.1 }, p.2)

/-- One scheduler event for a take_until subscription: a notification from
the primary source (inl) or from the other observable (inr).  An event of a
disposed subscription is not delivered.  The observer subscribed to other
(filter.py lines 373 to 376) maps a value to aclose on the safe observer and
an error to athrow; its own aclose is omitted, which the observer factory
defaults to a no-op (modelled from the spec, section 6). -/
def takeUntilStep (st : TakeUntilState) :
    Sum (Notification α) (Notification γ) → TakeUntilState × List (Notification α)
  | Sum.inl n =>
    if st.sub1Disposed then (st, [])
    else
      match n with
      | OnNext x => takeUntilDeliver st (ObsCall.send x)
      | OnError e => takeUntilDeliver st (ObsCall.throw e)
      | OnCompleted => takeUntilDeliver st ObsCall.close
  | Sum.inr n =>
    if st.sub2Disposed then (st, [])
    else
      match n with
      | OnNext _ => takeUntilDeliver st ObsCall.close
      | OnError e => takeUntilDeliver st (ObsCall.throw e)
      | OnCompleted => (st, [])

def takeUntilRun (st : TakeUntilState) :
    List (Sum (Notification α) (Notification γ)) →
      TakeUntilState × List (Notification α)
  | [] => (st, [])
  | e :: rest =>
    let p := takeUntilStep st e
    let q := takeUntilRun p.1 rest
    (q.1, p.2 ++ q.2)

/-- The composite disposable take_until returns to its consumer (filter.py
line 380): disposing it disposes both subscriptions. -/
def takeUntilDispose (st : TakeUntilState) : TakeUntilState :=
  { st with sub1Disposed := true, sub2Disposed := true }

/-- A notification list in which a terminal appears only as the last element:
at most one terminal is ever delivered and no send follows it. -/
def terminalOnce : List (Notification α) → Bool
  | [] => true
  | OnNext _ :: rest => terminalOnce rest
  | OnError _ :: rest => rest.isEmpty
  | OnCompleted :: rest => rest.isEmpty

/-- A notification list containing no terminal at all. -/
def noTerminal : List (Notification α) → Bool
  | [] => true
  | OnNext _ :: rest => noTerminal rest
  | OnError _ :: _ => false
  | OnCompleted :: _ => false

/-- Discharges Except values whose payload is not decidably comparable. -/
def isOkE : Except String γ → Bool
  | Except.ok _ => true
  | Except.error _ => false

/-- Shape of distinct_until_changed's possible outputs: adjacent values are
distinct, the first value differs from the seed accumulator, and a terminal
only ever stands last. -/
def dedupChain [DecidableEq α] (latest : Notification α) : List (Notification α) → Bool
  | [] => true
  | OnNext x :: rest =>
    if (OnNext x : Notification α) = latest then false else dedupChain (OnNext x) rest
  | OnError _ :: rest => rest.isEmpty
  | OnCompleted :: rest => rest.isEmpty

/-! ## The safe observer's terminal-once discipline -/

theorem terminalOnce_append_of_noTerminal {l1 l2 : List (Notification α)}
    (h : noTerminal l1 = true) : terminalOnce (l1 ++ l2) = terminalOnce l2 := by
  induction l1 with
  | nil => rfl
  | cons n rest ih =>
    cases n with
    | OnNext x =>
      simp only [List.cons_append, terminalOnce]
      exact ih (by simpa [noTerminal] using h)
    | OnError e => simp [noTerminal] at h
    | OnCompleted => simp [noTerminal] at h

theorem runCalls_stopped (cs : List (ObsCall α)) : runCalls true cs = (true, []) := by
  induction cs with
  | nil => rfl
  | cons c cs ih => cases c <;> simp [runCalls, safeStep, ih]

theorem runCalls_terminalOnce (stopped : Bool) (cs : List (ObsCall α)) :
    terminalOnce (runCalls stopped cs).2 = true := by
  induction cs generalizing stopped with
  | nil => cases stopped <;> rfl
  | cons c cs ih =>
    cases stopped with
    | true => simp [runCalls_stopped, terminalOnce]
    | false =>
      cases c with
      | send x =>
        simp only [runCalls, safeStep, if_neg, Bool.false_eq_true, not_false_iff,
          List.singleton_append, terminalOnce]
        exact ih false
      | throw e => simp [runCalls, safeStep, runCalls_stopped, terminalOnce]
      | close => simp [runCalls, safeStep, runCalls_stopped, terminalOnce]

theorem runCalls_noTerminal (cs : List (ObsCall α)) :
    (runCalls false cs).1 = false → noTerminal (runCalls false cs).2 = true := by
  induction cs with
  | nil => intro _; rfl
  | cons c cs ih =>
    cases c with
    | send x =>
      intro h
      simp only [runCalls, safeStep, if_neg, Bool.false_eq_true, not_false_iff,
        List.singleton_append, noTerminal] at h ⊢
      exact ih h
    | throw e => simp [runCalls, safeStep, runCalls_stopped]
    | close => simp [runCalls, safeStep, runCalls_stopped]

theorem runOp_stopped (react : σ → μ → σ × List (ObsCall β)) (s : σ) (l : List μ) :
    runOp react s true l = ([], 0) := by
  cases l <;> rfl

theorem runOp_terminalOnce (react : σ → μ → σ × List (ObsCall β)) (s : σ)
    (input : List μ) : terminalOnce (runOp react s false input).1 = true := by
  induction input generalizing s with
  | nil => rfl
  | cons m rest ih =>
    have step : runOp react s false (m :: rest) =
        ((runCalls false (react s m).2).2 ++
            (runOp react (react s m).1 (runCalls false (react s m).2).1 rest).1,
          (runOp react (react s m).1 (runCalls false (react s m).2).1 rest).2 + 1) := rfl
    rw [step]
    cases hst : (runCalls false (react s m).2).1 with
    | false =>
      dsimp only
      rw [terminalOnce_append_of_noTerminal (runCalls_noTerminal _ hst)]
      exact ih _
    | true =>
      dsimp only
      rw [runOp_stopped]
      simpa using runCalls_terminalOnce false (react s m).2

/-! ## take_until: delivery, disposal and termination lemmas -/

theorem takeUntilRun_stopped (st : TakeUntilState)
    (trace : List (Sum (Notification α) (Notification γ))) (h : st.stopped = true) :
    (takeUntilRun st trace).2 = [] ∧ (takeUntilRun st trace).1.stopped = true := by
  induction trace generalizing st with
  | nil => exact ⟨rfl, h⟩
  | cons e rest ih =>
    have hstep : (takeUntilStep (α := α) (γ := γ) st e).2 = [] ∧
        (takeUntilStep st e).1.stopped = true := by
      rcases e with n | n <;> cases n <;>
        cases hd : st.sub1Disposed <;> cases hd2 : st.sub2Disposed <;>
          simp [takeUntilStep, takeUntilDeliver, safeStep, h, hd, hd2]
    have hrest := ih (takeUntilStep st e).1 hstep.2
    refine ⟨?_, ?_⟩
    · show (takeUntilStep st e).2 ++ (takeUntilRun (takeUntilStep st e).1 rest).2 = []
      rw [hstep.1, hrest.1]
      rfl
    · show (takeUntilRun (takeUntilStep st e).1 rest).1.stopped = true
      exact hrest.2

theorem takeUntilDeliver_cases (st : TakeUntilState) (c : ObsCall α)
    (h : st.stopped = false) :
    (noTerminal (takeUntilDeliver st c).2 = true ∧
        (takeUntilDeliver st c).1.stopped = false) ∨
      (terminalOnce (takeUntilDeliver st c).2 = true ∧
        (takeUntilDeliver st c).1.stopped = true) := by
  cases c <;> simp [takeUntilDeliver, safeStep, h, noTerminal, terminalOnce]

theorem takeUntilStep_cases (st : TakeUntilState)
    (e : Sum (Notification α) (Notification γ)) (h : st.stopped = false) :
    (noTerminal (takeUntilStep st e).2 = true ∧
        (takeUntilStep st e).1.stopped = false) ∨
      (terminalOnce (takeUntilStep st e).2 = true ∧
        (takeUntilStep st e).1.stopped = true) := by
  rcases e with n | n <;> cases n <;> simp only [takeUntilStep] <;> (try split) <;>
    first
      | exact Or.inl ⟨rfl, h⟩
      | exact takeUntilDeliver_cases st _ h

theorem takeUntilRun_terminalOnce (st : TakeUntilState)
    (trace : List (Sum (Notification α) (Notification γ))) (h : st.stopped = false) :
    terminalOnce (takeUntilRun st trace).2 = true := by
  induction trace generalizing st with
  | nil => rfl
  | cons e rest ih =>
    show terminalOnce ((takeUntilStep st e).2 ++
        (takeUntilRun (takeUntilStep st e).1 rest).2) = true
    rcases takeUntilStep_cases st e h with ⟨hn, hstop⟩ | ⟨ht, hstop⟩
    · rw [terminalOnce_append_of_noTerminal hn]
      exact ih _ hstop
    · rw [(takeUntilRun_stopped _ rest hstop).1]
      simpa using ht

theorem takeUntilDeliver_disposes (st : TakeUntilState) (c : ObsCall α) :
    (takeUntilDeliver st c).1.stopped = true →
      (takeUntilDeliver st c).1.sub1Disposed = true := by
  intro hs
  simp only [takeUntilDeliver] at hs ⊢
  rw [hs, Bool.or_true]

theorem takeUntilStep_disposes (st : TakeUntilState)
    (e : Sum (Notification α) (Notification γ))
    (h : st.stopped = true → st.sub1Disposed = true) :
    (takeUntilStep st e).1.stopped = true →
      (takeUntilStep st e).1.sub1Disposed = true := by
  rcases e with n | n <;> cases n <;> simp only [takeUntilStep] <;> (try split) <;>
    first
      | exact h
      | exact takeUntilDeliver_disposes st _

theorem takeUntilRun_disposes (st : TakeUntilState)
    (trace : List (Sum (Notification α) (Notification γ)))
    (h : st.stopped = true → st.sub1Disposed = true) :
    (takeUntilRun st trace).1.stopped = true →
      (takeUntilRun st trace).1.sub1Disposed = true := by
  induction trace generalizing st with
  | nil => exact h
  | cons e rest ih => exact ih (takeUntilStep st e).1 (takeUntilStep_disposes st e h)

/-! ## distinct_until_changed: output shape and idempotence -/

theorem distinct_cons_dup [DecidableEq α] (latest : Notification α) (x : α)
    (h : (OnNext x : Notification α) = latest) (rest : List (Notification α)) :
    (runOp distinctReact latest false (OnNext x :: rest)).1 =
      (runOp distinctReact latest false rest).1 := by
  subst h
  simp [runOp, runCalls, distinctReact]

theorem distinct_cons_new [DecidableEq α] (latest : Notification α) (x : α)
    (h : (OnNext x : Notification α) ≠ latest) (rest : List (Notification α)) :
    (runOp distinctReact latest false (OnNext x :: rest)).1 =
      OnNext x :: (runOp distinctReact (OnNext x) false rest).1 := by
  simp [runOp, runCalls, distinctReact, safeStep, h]

theorem distinct_cons_error [DecidableEq α] (latest : Notification α) (e : Nat)
    (rest : List (Notification α)) :
    (runOp distinctReact latest false (OnError e :: rest)).1 = [OnError e] := by
  simp [runOp, runCalls, distinctReact, safeStep, runOp_stopped]

theorem distinct_cons_completed [DecidableEq α] (latest : Notification α)
    (rest : List (Notification α)) :
    (runOp distinctReact latest false (OnCompleted :: rest)).1 = [OnCompleted] := by
  simp [runOp, runCalls, distinctReact, safeStep, runOp_stopped]

theorem distinct_output_chain [DecidableEq α] (l : List (Notification α))
    (latest : Notification α) :
    dedupChain latest (runOp distinctReact latest false l).1 = true := by
  induction l generalizing latest with
  | nil => rfl
  | cons n rest ih =>
    cases n with
    | OnNext x =>
      by_cases h : (OnNext x : Notification α) = latest
      · rw [distinct_cons_dup latest x h rest]
        exact ih latest
      · rw [distinct_cons_new latest x h rest]
        simp only [dedupChain, if_neg h]
        exact ih (OnNext x)
    | OnError e => rw [distinct_cons_error]; rfl
    | OnCompleted => rw [distinct_cons_completed]; rfl

theorem distinct_output_fixed [DecidableEq α] (l : List (Notification α))
    (latest : Notification α) (h : dedupChain latest l = true) :
    (runOp distinctReact latest false l).1 = l := by
  induction l generalizing latest with
  | nil => rfl
  | cons n rest ih =>
    cases n with
    | OnNext x =>
      by_cases he : (OnNext x : Notification α) = latest
      · rw [dedupChain, if_pos he] at h
        exact absurd h (by simp)
      · rw [dedupChain, if_neg he] at h
        rw [distinct_cons_new latest x he rest, ih (OnNext x) h]
    | OnError e =>
      cases rest with
      | nil => rw [distinct_cons_error]
      | cons m t => rw [dedupChain] at h; simp at h
    | OnCompleted =>
      cases rest with
      | nil => rw [distinct_cons_completed]
      | cons m t => rw [dedupChain] at h; simp at h

/-! ## The claims -/

/-- C1 counterexample: take the pipeline that is the single operator delay and
inject the signal sequence completion-then-value.  delay subscribes the raw
downstream observer with no auto-detach wrapper (timeshift.py lines 67 to 79
dispatch on aobv directly), so its actor forwards the injected value after the
terminal: the sink trace is OnCompleted followed by OnNext 1, violating
terminal-once as the claim states it for any pipeline and any injected
sequence. -/
theorem C1_delay_forwards_after_terminal :
    terminalOnce (delay_loop_output delay_observable
      [OnCompleted, OnNext (1 : Int)]) = false := by decide

/-- C1 (amended): every operator that routes its emissions through the
auto-detach safe observer delivers at most one terminal and no send after it,
for every local state and every injected message sequence — and so does
take_until, whose two subscriptions share one safe observer; delay, which
bypasses the safe observer, merely preserves terminal-once when the injected
sequence itself satisfies it, and does not enforce it otherwise. -/
theorem C1_terminal_once_discipline :
    (∀ (μ σ β : Type) (react : σ → μ → σ × List (ObsCall β)) (s : σ)
        (input : List μ), terminalOnce (runOp react s false input).1 = true) ∧
    (∀ (α γ : Type) (trace : List (Sum (Notification α) (Notification γ))),
        terminalOnce (takeUntilRun takeUntilInit trace).2 = true) ∧
    (∀ (α : Type) (o : DelayObservable) (input : List (Notification α)),
        terminalOnce input = true → terminalOnce (delay_loop_output o input) = true) := by
  refine ⟨fun _ _ _ react s input => runOp_terminalOnce react s input,
    fun _ _ trace => takeUntilRun_terminalOnce takeUntilInit trace rfl,
    fun _ o input h => ?_⟩
  cases hc : o.ctsCancelled <;> simp [delay_loop_output, hc, h, terminalOnce]

/-- C2: a source emitting the five values 1..5 (and not yet completed) through
take(3) delivers exactly OnNext 1, OnNext 2, OnNext 3 and a synthesized
completion, and only 3 upstream notifications are consumed: the safe observer
stops on the synthesized completion and auto-detach disposes the upstream
subscription at once, so the 4th value is never requested. -/
theorem C2_take_three_values_then_completes :
    take_run 3 [OnNext (1 : Int), OnNext 2, OnNext 3, OnNext 4, OnNext 5] =
      ([OnNext 1, OnNext 2, OnNext 3, OnCompleted], 3) := by decide

/-- C3: the source 1,2,3,4 then completion through skip_last(2) delivers
exactly 1, 2 and the completion — each arrival that overflows the two-slot
queue forwards the popped oldest item, and on completion the buffered 3 and 4
are dropped, never flushed (all 5 upstream notifications are consumed). -/
theorem C3_skip_last_two_no_flush :
    skip_last_run 2 [OnNext (some (1 : Int)), OnNext (some 2), OnNext (some 3),
        OnNext (some 4), OnCompleted] =
      ([OnNext (some 1), OnNext (some 2), OnCompleted], 5) ∧
    OnNext (some (3 : Int)) ∉ (skip_last_run 2 [OnNext (some (1 : Int)),
        OnNext (some 2), OnNext (some 3), OnNext (some 4), OnCompleted]).1 ∧
    OnNext (some (4 : Int)) ∉ (skip_last_run 2 [OnNext (some (1 : Int)),
        OnNext (some 2), OnNext (some 3), OnNext (some 4), OnCompleted]).1 := by
  refine ⟨by decide, by decide, by decide⟩

/-- C4: slice(1, -2) unfolds to exactly the composition skip(1) then
skip_last(2) on every input (the start branch picks skip, the non-positive
stop branch picks skip_last, and step 1 adds nothing), and on the 8-element
source r,e,a,c,t,i,v,e followed by completion it produces e,a,c,t,i then
completion. -/
theorem C4_slice_is_skip_then_skip_last :
    (∀ (β : Type) (input : List (Notification (Option β))),
        slice_apply (some 1) (some (-2)) 1 input =
          Except.ok (sliceSpecSkipOneSkipLastTwo input)) ∧
    slice_apply (some 1) (some (-2)) 1
        [OnNext (some 'r'), OnNext (some 'e'), OnNext (some 'a'), OnNext (some 'c'),
         OnNext (some 't'), OnNext (some 'i'), OnNext (some 'v'), OnNext (some 'e'),
         OnCompleted] =
      Except.ok [OnNext (some 'e'), OnNext (some 'a'), OnNext (some 'c'),
         OnNext (some 't'), OnNext (some 'i'), OnCompleted] :=
  ⟨fun _ _ => rfl, rfl⟩

/-- C5: distinct_until_changed maps the source 1,1,2,2,2,3,1 then completion
to 1,2,3,1 then completion; its accumulator is seeded with the completion
sentinel, which no OnNext equals, so the first value always forwards; and its
output is a fixed point of the operator — applying it a second time to its
own output changes nothing, for every input stream. -/
theorem C5_distinct_until_changed_idempotent :
    distinct_output [OnNext (1 : Int), OnNext 1, OnNext 2, OnNext 2, OnNext 2,
        OnNext 3, OnNext 1, OnCompleted] =
      [OnNext 1, OnNext 2, OnNext 3, OnNext 1, OnCompleted] ∧
    (∀ (α : Type) [DecidableEq α] (x : α) (l : List (Notification α)),
        distinct_output (OnNext x :: l) =
          OnNext x :: (runOp distinctReact (OnNext x) false l).1) ∧
    (∀ (α : Type) [DecidableEq α] (l : List (Notification α)),
        distinct_output (distinct_output l) = distinct_output l) := by
  refine ⟨by decide, ?_, ?_⟩
  · intro α _ x l
    exact distinct_cons_new OnCompleted x (by simp) l
  · intro α _ l
    exact distinct_output_fixed _ _ (distinct_output_chain l OnCompleted)

/-- C6: the debounce actor forwards a value exactly when the delivery carries
the index that is still the most recently seen one, and drops it otherwise;
on the claim's timeline — values v0, v1, v2 posted at 0ms, 10ms, 250ms
through debounce(200ms), whose timers re-post each pair 200ms later, giving
the post order (v0,0) at 0, (v1,1) at 10, (v0,0) at 200, (v1,1) at 210,
(v2,2) at 250 and (v2,2) at 450 — only v1 and v2 are emitted and the 0ms
value v0 is dropped. -/
theorem C6_debounce_quiet_period :
    (∀ (ci i x : Int),
        ((debounceReact ci (OnNext x, i)).2 = [ObsCall.send x] ↔ i = ci) ∧
        (i ≠ ci → (debounceReact ci (OnNext x, i)).2 = [])) ∧
    debounce_output [(OnNext (10 : Int), 0), (OnNext 20, 1), (OnNext 10, 0),
        (OnNext 20, 1), (OnNext 30, 2), (OnNext 30, 2)] =
      [OnNext 20, OnNext 30] := by
  constructor
  · intro ci i x
    constructor
    · constructor
      · intro h
        by_cases hi : i = ci
        · exact hi
        · by_cases hg : i > ci <;> simp [debounceReact, hi, hg] at h
      · intro h
        simp [debounceReact, h]
    · intro h
      by_cases hg : i > ci <;> simp [debounceReact, h, hg]
  · decide

/-- C7 counterexample: slice applied with step 0 — which is below 1 and not
exactly 1, so the claim says its construction raises — is accepted: the
construction returns a valid observable, identical to the one step 1 builds
(filter.py lines 433 to 439 only check step > 1 and step < 0, so step 0
falls through both). -/
theorem C7_slice_step_zero_not_rejected :
    isOkE (slice_make (β := Int) (some 1) (some (-2)) 0) = true ∧
    slice_make (β := Int) (some 1) (some (-2)) 0 =
      slice_make (β := Int) (some 1) (some (-2)) 1 := ⟨rfl, rfl⟩

/-- C7 (amended): configuration errors are raised at pipeline-construction
time, never inside a subscription (construction returns Except while the
constructed run functions are total): take errors exactly on a negative
count; slice errors on a negative step, and propagates take's negative-count
error when stop is positive but below start; but step 0 is not checked — a
non-negative step never raises, step 0 silently behaving like step 1. -/
theorem C7_configuration_errors :
    (∀ count : Int, count < 0 →
        take_make count = Except.error "Count cannot be negative.") ∧
    (∀ count : Int, 0 ≤ count → take_make count = Except.ok count) ∧
    (∀ (start stop : Option Int) (step : Int), step < 0 →
        isOkE (slice_make (β := Int) start stop step) = false) ∧
    (∀ step : Int, 0 ≤ step → isOkE (slice_make (β := Int) none none step) = true) ∧
    slice_make (β := Int) (some 5) (some 3) 1 =
      Except.error "Count cannot be negative." := by
  refine ⟨?_, ?_, ?_, ?_, rfl⟩
  · intro c h
    simp [take_make, h]
  · intro c h
    simp [take_make, not_lt.mpr h]
  · intro start stop step h
    have h1 : ¬ step > 1 := by omega
    rcases hs : sliceStop (β := Int) start stop with msg | f2 <;>
      simp [slice_make, hs, sliceStep, h1, h, isOkE]
  · intro step h
    have h0 : ¬ step < 0 := by omega
    by_cases h1 : step > 1 <;>
      simp [slice_make, sliceStop, sliceStep, h1, h0, isOkE]

/-- C8: evaluation at the failing input.  The CancellationTokenSource is
created when delay wraps the source (timeshift.py line 48), outside
subscribe_async, so all subscriptions to the same delayed observable share
it; after one subscription's disposal calls cts.cancel(), another
subscription's actor loop reads the same cancelled token at its next check
and processes nothing, where an undisturbed subscription would deliver its
pending value. -/
theorem C8_shared_token_source :
    delay_loop_output (delay_dispose delay_observable) [OnNext (1 : Int)] = [] ∧
    delay_loop_output delay_observable [OnNext (1 : Int)] = [OnNext 1] := by decide

/-- C9 counterexample: run a take_until subscription on the trace consisting
of the primary source completing.  The completion is delivered downstream
(the stream terminated) and auto-detach disposes the primary subscription
sub1, but the subscription sub2 to the other observable is left undisposed —
refuting the claim that both subscriptions are disposed when either of the
two streams terminates. -/
theorem C9_other_subscription_left_undisposed :
    takeUntilRun (α := Int) (γ := Unit) takeUntilInit [Sum.inl OnCompleted] =
      ({ stopped := true, sub1Disposed := true, sub2Disposed := false },
        [OnCompleted]) := by decide

/-- C9 (amended): the first value arriving from the other observable, while
the subscription is live, delivers a completion downstream and disposes the
primary subscription; whenever a terminal has been delivered downstream the
primary subscription is disposed (auto-detach); but the subscription to
other is disposed only by the returned composite disposable, which disposes
both. -/
theorem C9_take_until_closes_and_disposes_primary :
    (∀ (α γ : Type) (x : γ) (st : TakeUntilState), st.stopped = false →
        st.sub2Disposed = false →
        takeUntilStep (α := α) st (Sum.inr (OnNext x)) =
          ({ st with stopped := true, sub1Disposed := true }, [OnCompleted])) ∧
    (∀ (α γ : Type) (trace : List (Sum (Notification α) (Notification γ))),
        (takeUntilRun takeUntilInit trace).1.stopped = true →
        (takeUntilRun takeUntilInit trace).1.sub1Disposed = true) ∧
    (∀ st : TakeUntilState, (takeUntilDispose st).sub1Disposed = true ∧
        (takeUntilDispose st).sub2Disposed = true) := by
  refine ⟨?_, ?_, fun st => ⟨rfl, rfl⟩⟩
  · intro α γ x st h1 h2
    cases st
    subst h1
    subst h2
    simp [takeUntilStep, takeUntilDeliver, safeStep]
  · intro α γ trace
    exact takeUntilRun_disposes takeUntilInit trace (fun h => absurd h (by decide))

/-- C10: skip_last's forwarding is gated on the popped front not being None —
for any full buffer whose oldest element is None, the next arrival pops and
silently drops it (nothing is emitted, the buffer rotates); concretely,
skip_last(2) on the source None,1,2,3,4 then completion emits 1, 2 and the
completion: the None is lost outright rather than delayed by two positions. -/
theorem C10_skip_last_drops_buffered_none :
    (∀ (β : Type) (count : Int) (t : List (Option β)) (v : Option β),
        (t.length : Int) + 2 > count →
        (skipLastReact count (none :: t) (OnNext v)).2 = [] ∧
        (skipLastReact count (none :: t) (OnNext v)).1 = t ++ [v]) ∧
    skip_last_run 2 [OnNext (none : Option Int), OnNext (some 1), OnNext (some 2),
        OnNext (some 3), OnNext (some 4), OnCompleted] =
      ([OnNext (some 1), OnNext (some 2), OnCompleted], 6) ∧
    OnNext (none : Option Int) ∉ (skip_last_run 2 [OnNext (none : Option Int),
        OnNext (some 1), OnNext (some 2), OnNext (some 3), OnNext (some 4),
        OnCompleted]).1 := by
  refine ⟨?_, by decide, by decide⟩
  intro β count t v h
  have hlen : ((none :: (t ++ [v]) : List (Option β)).length : Int) > count := by
    simp only [List.length_cons, List.length_append, List.length_singleton]
    push_cast
    omega
  simp only [skipLastReact, List.cons_append]
  rw [if_pos hlen]
  exact ⟨rfl, rfl⟩
